import Mathlib

/-!
Verification of the TradeApp data layer (DataContext.tsx, TradingJournal.tsx,
PortfolioBreakdown.tsx), shallowly embedded in Lean 4.

Numbers are modelled as rationals.  JavaScript truthiness on an optional
numeric field (`if (x)`) is modelled by `isTruthy`: `null`/absent and `0`
are both falsy.  The randomly generated ids (`crypto.randomUUID()`) and the
random-walk factors (`Math.random()`) are passed in as parameters.
-/

namespace TradeApp

/-- Source `types.ts`: `enum Direction` with values Long and Short. -/
inductive Direction where
  | Long
  | Short
deriving DecidableEq, Repr

/-- Source `types.ts`: trade status literal union Open | Win | Loss | Breakeven. -/
inductive TradeStatus where
  | Open
  | Win
  | Loss
  | Breakeven
deriving DecidableEq, Repr

/-- Source `types.ts`: `enum Sentiment`. -/
inductive Sentiment where
  | Bullish
  | Bearish
  | Neutral
  | Mixed
deriving DecidableEq, Repr

/-- Source `types.ts`: `type AssetType = Crypto | Stock`. -/
inductive AssetType where
  | Crypto
  | Stock
deriving DecidableEq, Repr

/-- Source `types.ts`: portfolio category literal union. -/
inductive Category where
  | Liquid
  | Vested
  | Farming
deriving DecidableEq, Repr

/-- Source `types.ts`: `interface Trade`.  `exitPrice` and `pnl` are
`number | null`; the optional free-text fields are collapsed into the
required ones we need plus two optional strings. -/
structure Trade where
  id : String
  date : String
  ticker : String
  direction : Direction
  entryPrice : ℚ
  exitPrice : Option ℚ
  size : ℚ
  pnl : Option ℚ
  status : TradeStatus
  rationale : String
  exitReason : Option String
  postExitReflection : Option String
deriving DecidableEq, Repr

/-- `Omit(Trade, id | pnl)`: the payload accepted by `addTrade`. -/
structure TradeInput where
  date : String
  ticker : String
  direction : Direction
  entryPrice : ℚ
  exitPrice : Option ℚ
  size : ℚ
  status : TradeStatus
  rationale : String
  exitReason : Option String
  postExitReflection : Option String
deriving DecidableEq, Repr

/-- `Partial(Omit(Trade, id | pnl))`: the updates accepted by `editTrade`.
The outer `Option` marks whether the key is supplied at all; for fields that
are themselves nullable the inner `Option` carries the `null`. -/
structure TradeUpdates where
  date : Option String := none
  ticker : Option String := none
  direction : Option Direction := none
  entryPrice : Option ℚ := none
  exitPrice : Option (Option ℚ) := none
  size : Option ℚ := none
  status : Option TradeStatus := none
  rationale : Option String := none
  exitReason : Option (Option String) := none
  postExitReflection : Option (Option String) := none
deriving DecidableEq, Repr

/-- JavaScript truthiness of a `number | null` value: `null` and `0` are falsy. -/
def isTruthy : Option ℚ → Bool
  | none => false
  | some x => decide (x ≠ 0)

/-- The guard `status !== Open && exitPrice` shared by the PnL branches of
`addTrade` (DataContext.tsx line 215) and `editTrade` (line 252). -/
def tradeGuard (status : TradeStatus) (exitPrice : Option ℚ) : Bool :=
  decide (status ≠ TradeStatus.Open) && isTruthy exitPrice

/-- The PnL formula of DataContext.tsx lines 219-223 / 256-260:
Long: `((exit - entry) / entry) * size`; Short: `((entry - exit) / entry) * size`. -/
def pnlFormula (direction : Direction) (entry exit size : ℚ) : ℚ :=
  match direction with
  | Direction.Long => ((exit - entry) / entry) * size
  | Direction.Short => ((entry - exit) / entry) * size

/-- The trade record built by `addTrade` (DataContext.tsx lines 211-230):
pnl starts `null` and is auto-calculated when the guard holds; the fresh
`crypto.randomUUID()` is the `newId` parameter. -/
def addTradeRecord (newId : String) (tradeData : TradeInput) : Trade :=
  let pnl : Option ℚ :=
    if tradeGuard tradeData.status tradeData.exitPrice then
      some (pnlFormula tradeData.direction tradeData.entryPrice
        (tradeData.exitPrice.getD 0) tradeData.size)
    else none
  { id := newId
    date := tradeData.date
    ticker := tradeData.ticker
    direction := tradeData.direction
    entryPrice := tradeData.entryPrice
    exitPrice := tradeData.exitPrice
    size := tradeData.size
    pnl := pnl
    status := tradeData.status
    rationale := tradeData.rationale
    exitReason := tradeData.exitReason
    postExitReflection := tradeData.postExitReflection }

/-- `addTrade` on the trades collection: the new record is prepended
(`[newTrade, ...prev]`, DataContext.tsx lines 234/236). -/
def addTrade (trades : List Trade) (newId : String) (tradeData : TradeInput) : List Trade :=
  addTradeRecord newId tradeData :: trades

/-- The spread merge `mergedTrade = ...currentTrade, ...updates`
(DataContext.tsx line 247).  Supplied keys override; `pnl` and `id` are not
part of the updates and are carried over. -/
def mergeTrade (currentTrade : Trade) (updates : TradeUpdates) : Trade :=
  { id := currentTrade.id
    date := updates.date.getD currentTrade.date
    ticker := updates.ticker.getD currentTrade.ticker
    direction := updates.direction.getD currentTrade.direction
    entryPrice := updates.entryPrice.getD currentTrade.entryPrice
    exitPrice := updates.exitPrice.getD currentTrade.exitPrice
    size := updates.size.getD currentTrade.size
    pnl := currentTrade.pnl
    status := updates.status.getD currentTrade.status
    rationale := updates.rationale.getD currentTrade.rationale
    exitReason := updates.exitReason.getD currentTrade.exitReason
    postExitReflection := updates.postExitReflection.getD currentTrade.postExitReflection }

/-- The final record produced by `editTrade` for a found trade
(DataContext.tsx lines 246-265): pnl is recomputed when the guard holds on
the merged record, cleared when the merged status is Open, and otherwise
left at the previously stored value. -/
def editTradeRecord (currentTrade : Trade) (updates : TradeUpdates) : Trade :=
  let mergedTrade := mergeTrade currentTrade updates
  let pnl : Option ℚ :=
    if tradeGuard mergedTrade.status mergedTrade.exitPrice then
      some (pnlFormula mergedTrade.direction mergedTrade.entryPrice
        (mergedTrade.exitPrice.getD 0) mergedTrade.size)
    else if mergedTrade.status = TradeStatus.Open then none
    else currentTrade.pnl
  { mergedTrade with pnl := pnl }

/-- `editTrade` on the trades collection (DataContext.tsx lines 242-278):
a missing id returns early with no change, otherwise the matching trade is
replaced by the recomputed record. -/
def editTrade (trades : List Trade) (id : String) (updates : TradeUpdates) : List Trade :=
  match trades.find? (fun t => t.id = id) with
  | none => trades
  | some currentTrade =>
      trades.map (fun t => if t.id = id then editTradeRecord currentTrade updates else t)

/-- One mutation on the trades collection, for stating invariants over
arbitrary operation sequences. -/
inductive TradeOp where
  | add (newId : String) (tradeData : TradeInput)
  | edit (id : String) (updates : TradeUpdates)

/-- Apply a single `TradeOp`. -/
def applyTradeOp (trades : List Trade) : TradeOp → List Trade
  | TradeOp.add newId tradeData => addTrade trades newId tradeData
  | TradeOp.edit id updates => editTrade trades id updates

/-- Apply a sequence of trade mutations in order. -/
def applyTradeOps (trades : List Trade) (ops : List TradeOp) : List Trade :=
  ops.foldl applyTradeOp trades

/-- The amended pnl invariant: pnl is absent on Open trades, and present
whenever status is not Open and the stored exitPrice is truthy (present and
nonzero). -/
def pnlInvariant (t : Trade) : Prop :=
  (t.status = TradeStatus.Open → t.pnl = none) ∧
  (t.status ≠ TradeStatus.Open → isTruthy t.exitPrice = true → t.pnl ≠ none)

/-! ### Journal entries (DataContext.tsx lines 147-169, types.ts) -/

/-- Source `types.ts`: `interface JournalEntry`. -/
structure JournalEntry where
  id : String
  date : String
  macroReview : String
  altsMarket : String
  summary : String
  sentiment : Sentiment
deriving DecidableEq, Repr

/-- `Omit(JournalEntry, id)`: the payload accepted by `addJournalEntry`. -/
structure JournalEntryInput where
  date : String
  macroReview : String
  altsMarket : String
  summary : String
  sentiment : Sentiment
deriving DecidableEq, Repr

/-- `newEntry = ...entry, id: crypto.randomUUID()` (DataContext.tsx line 148);
the fresh uuid is the `newId` parameter. -/
def mkJournalEntry (newId : String) (entry : JournalEntryInput) : JournalEntry :=
  { id := newId
    date := entry.date
    macroReview := entry.macroReview
    altsMarket := entry.altsMarket
    summary := entry.summary
    sentiment := entry.sentiment }

/-- `addJournalEntry` on the collection: `[newEntry, ...journalEntries]`
(DataContext.tsx lines 152/154; both persistence paths prepend the same
record on success). -/
def addJournalEntry (journalEntries : List JournalEntry) (entry : JournalEntryInput)
    (newId : String) : List JournalEntry :=
  mkJournalEntry newId entry :: journalEntries

/-! ### Portfolio items and live prices -/

/-- Source `types.ts`: `interface PortfolioItem`.  `assetType` may be
undefined on records persisted before the field existed (DataContext.tsx
line 92 comment), hence the `Option`. -/
structure PortfolioItem where
  id : String
  token : String
  amount : ℚ
  buyPrice : ℚ
  currentPrice : ℚ
  category : Category
  assetType : Option AssetType
deriving DecidableEq, Repr

/-- `Omit(PortfolioItem, id)`. -/
structure PortfolioItemInput where
  token : String
  amount : ℚ
  buyPrice : ℚ
  currentPrice : ℚ
  category : Category
  assetType : Option AssetType
deriving DecidableEq, Repr

/-- `Partial(Omit(PortfolioItem, id))`: updates accepted by `editPortfolioItem`. -/
structure PortfolioUpdates where
  token : Option String := none
  amount : Option ℚ := none
  buyPrice : Option ℚ := none
  currentPrice : Option ℚ := none
  category : Option Category := none
  assetType : Option (Option AssetType) := none
deriving DecidableEq, Repr

/-- `newItem = ...item, id: crypto.randomUUID()` (DataContext.tsx line 172). -/
def mkPortfolioItem (newId : String) (item : PortfolioItemInput) : PortfolioItem :=
  { id := newId
    token := item.token
    amount := item.amount
    buyPrice := item.buyPrice
    currentPrice := item.currentPrice
    category := item.category
    assetType := item.assetType }

/-- The spread merge `...item, ...updates` used by `editPortfolioItem`
(DataContext.tsx lines 190/193). -/
def mergePortfolioItem (item : PortfolioItem) (updates : PortfolioUpdates) : PortfolioItem :=
  { id := item.id
    token := updates.token.getD item.token
    amount := updates.amount.getD item.amount
    buyPrice := updates.buyPrice.getD item.buyPrice
    currentPrice := updates.currentPrice.getD item.currentPrice
    category := updates.category.getD item.category
    assetType := updates.assetType.getD item.assetType }

/-- JavaScript `s.toUpperCase()` on ticker strings: uppercase every
character. -/
def jsToUpperCase (s : String) : String := String.mk (s.data.map Char.toUpper)

/-- The live-price map `Record(string, number)`, modelled as an association
list; only its lookup behaviour is observable. -/
abbrev PriceMap := List (String × ℚ)

/-- Property read `m[key]`: `none` models `undefined`. -/
def priceLookup (m : PriceMap) (key : String) : Option ℚ :=
  (m.find? (fun p => p.1 = key)).map (fun p => p.2)

/-- Property write `m[key] = v`. -/
def setKey (m : PriceMap) (key : String) (v : ℚ) : PriceMap :=
  (key, v) :: m.filter (fun p => p.1 ≠ key)

/-- `Object.keys(data).forEach(k => m[k] = data[k])`: write every binding of
`results` into `m` in order (later bindings for the same key win). -/
def mergeInto (m : PriceMap) (results : List (String × ℚ)) : PriceMap :=
  results.foldl (fun acc kv => setKey acc kv.1 kv.2) m

/-- The value the key `key` ends up with after `results` is written in order:
its last binding in `results`, if any. -/
def lookupLast (results : List (String × ℚ)) (key : String) : Option ℚ :=
  match results with
  | [] => none
  | kv :: rest =>
      match lookupLast rest key with
      | some v => some v
      | none => if kv.1 = key then some kv.2 else none

/-- The partition test of DataContext.tsx line 93:
`item.assetType === Crypto || !item.assetType`. -/
def isCryptoItem (item : PortfolioItem) : Bool :=
  match item.assetType with
  | some AssetType.Crypto => true
  | none => true
  | some AssetType.Stock => false

/-- JavaScript `x || fallback` on a possibly-undefined number: `undefined`
and `0` both select the fallback. -/
def jsOrNum (x : Option ℚ) (fallback : ℚ) : ℚ :=
  match x with
  | some v => if v = 0 then fallback else v
  | none => fallback

/-- `Number(x.toFixed(2))`: round to two decimal places. -/
def round2 (x : ℚ) : ℚ := (round (x * 100) : ℚ) / 100

/-- The synthetic price for one non-crypto item (DataContext.tsx lines
117-122): previous map value (or `currentPrice` if falsy) times a random
factor; the `Math.random()` draw for the item is `factors item.id`. -/
def stockVal (factors : String → ℚ) (m : PriceMap) (item : PortfolioItem) : ℚ :=
  round2 (jsOrNum (priceLookup m item.token) item.currentPrice *
    (1 + (factors item.id - 1/2) * (1/100)))

/-- One iteration of the `stockItems.forEach` loop: write the synthesized
price under the raw (not uppercased) token. -/
def stockStep (factors : String → ℚ) (m : PriceMap) (item : PortfolioItem) : PriceMap :=
  setKey m item.token (stockVal factors m item)

/-- The bindings written by the stock loop, in order, starting from map `m`. -/
def stockWrites (factors : String → ℚ) : PriceMap → List PortfolioItem → List (String × ℚ)
  | _, [] => []
  | m, item :: rest =>
      (item.token, stockVal factors m item) ::
        stockWrites factors (setKey m item.token (stockVal factors m item)) rest

/-- The map after step 2 of `refreshPrices`: the crypto fetch result merged
into a copy of the previous map, guarded by `cryptoTickers.size > 0`
(DataContext.tsx lines 85, 101-113).  `cryptoData` is the parsed response
(empty when the fetch failed and was caught). -/
def cryptoMergedMap (prev : PriceMap) (items : List PortfolioItem)
    (cryptoData : List (String × ℚ)) : PriceMap :=
  if (items.filter isCryptoItem).isEmpty then prev else mergeInto prev cryptoData

/-- `refreshPrices` (DataContext.tsx lines 81-127) as a map transformer:
early return on an empty portfolio, then the crypto merge, then the stock
random-walk loop. -/
def refreshPrices (prev : PriceMap) (items : List PortfolioItem)
    (cryptoData : List (String × ℚ)) (factors : String → ℚ) : PriceMap :=
  if items.isEmpty then prev
  else
    (items.filter (fun i => !isCryptoItem i)).foldl (stockStep factors)
      (cryptoMergedMap prev items cryptoData)

/-- The synthesized non-crypto price bindings of one `refreshPrices` cycle. -/
def synthesizedStockPrices (prev : PriceMap) (items : List PortfolioItem)
    (cryptoData : List (String × ℚ)) (factors : String → ℚ) : List (String × ℚ) :=
  stockWrites factors (cryptoMergedMap prev items cryptoData)
    (items.filter (fun i => !isCryptoItem i))

/-- The same cycle with the two merges in the other order: stock loop first,
crypto result merged last. -/
def refreshPricesStocksFirst (prev : PriceMap) (items : List PortfolioItem)
    (cryptoData : List (String × ℚ)) (factors : String → ℚ) : PriceMap :=
  if items.isEmpty then prev
  else
    let m1 := (items.filter (fun i => !isCryptoItem i)).foldl (stockStep factors) prev
    if (items.filter isCryptoItem).isEmpty then m1 else mergeInto m1 cryptoData

/-! ### Portfolio valuation (PortfolioBreakdown.tsx lines 44-72) -/

/-- One row of the `stats.dataByToken` memo: the spread `...item` plus the
derived fields.  The subsequent sort only permutes these derived rows. -/
structure StatRow where
  item : PortfolioItem
  effectivePrice : ℚ
  isLive : Bool
  value : ℚ
  pnl : ℚ
  invested : ℚ
deriving DecidableEq, Repr

/-- PortfolioBreakdown.tsx lines 48-68: `livePrice = livePrices[token.toUpperCase()]`,
`effectivePrice = livePrice !== undefined ? livePrice : currentPrice` (an
explicit undefined test, so a live price of 0 is used), and the derived
value/pnl/invested fields. -/
def statRow (livePrices : PriceMap) (item : PortfolioItem) : StatRow :=
  let livePrice := priceLookup livePrices (jsToUpperCase item.token)
  let effectivePrice :=
    match livePrice with
    | some p => p
    | none => item.currentPrice
  { item := item
    effectivePrice := effectivePrice
    isLive := livePrice.isSome
    value := effectivePrice * item.amount
    pnl := effectivePrice * item.amount - item.buyPrice * item.amount
    invested := item.buyPrice * item.amount }

/-- The `portfolioItems.map(...)` of the stats memo (before the value sort). -/
def statsDataByToken (portfolioItems : List PortfolioItem) (livePrices : PriceMap) :
    List StatRow :=
  portfolioItems.map (statRow livePrices)

/-! ### The trade form's exit-price handler (TradingJournal.tsx lines 78-109) -/

/-- The trade form state relevant to `handleExitPriceChange`.  Numeric form
fields are text inputs; `none` models the empty (falsy) string, `some x` a
nonempty numeric string (every nonempty string, including the string 0, is
truthy). -/
structure TradeForm where
  date : String
  ticker : String
  direction : Direction
  entryPrice : Option ℚ
  exitPrice : Option ℚ
  size : Option ℚ
  status : TradeStatus
  rationale : String
  exitReason : String
  postExitReflection : String
deriving DecidableEq, Repr

/-- `handleExitPriceChange` (TradingJournal.tsx lines 78-109): when the new
exit-price field and the entry-price field are both nonempty, recompute the
form status by comparing them (Long: exit above entry is Win, below is Loss,
equal is Breakeven; Short inverted); otherwise keep the previous status.
The new exit price is stored either way. -/
def handleExitPriceChange (form : TradeForm) (price : Option ℚ) : TradeForm :=
  let newStatus :=
    match price, form.entryPrice with
    | some exit, some entry =>
        match form.direction with
        | Direction.Long =>
            if exit > entry then TradeStatus.Win
            else if exit < entry then TradeStatus.Loss
            else TradeStatus.Breakeven
        | Direction.Short =>
            if exit < entry then TradeStatus.Win
            else if exit > entry then TradeStatus.Loss
            else TradeStatus.Breakeven
    | _, _ => form.status
  { form with exitPrice := price, status := newStatus }

/-! ### Remote persistence strategy (the Supabase branches of DataContext.tsx)

Each mutation awaits the remote call and updates the in-memory collection
only under `if (!error)`.  The reported error is the `err` parameter. -/

/-- Remote `addJournalEntry` (DataContext.tsx lines 150-152). -/
def addJournalEntryRemote (err : Bool) (journalEntries : List JournalEntry)
    (entry : JournalEntryInput) (newId : String) : List JournalEntry :=
  if err then journalEntries else mkJournalEntry newId entry :: journalEntries

/-- Remote `deleteJournalEntry` (DataContext.tsx lines 161-163). -/
def deleteJournalEntryRemote (err : Bool) (journalEntries : List JournalEntry)
    (id : String) : List JournalEntry :=
  if err then journalEntries else journalEntries.filter (fun e => e.id ≠ id)

/-- Remote `addPortfolioItem` (DataContext.tsx lines 174-176). -/
def addPortfolioItemRemote (err : Bool) (portfolioItems : List PortfolioItem)
    (item : PortfolioItemInput) (newId : String) : List PortfolioItem :=
  if err then portfolioItems else mkPortfolioItem newId item :: portfolioItems

/-- Remote `editPortfolioItem` (DataContext.tsx lines 187-191). -/
def editPortfolioItemRemote (err : Bool) (portfolioItems : List PortfolioItem)
    (id : String) (updates : PortfolioUpdates) : List PortfolioItem :=
  if err then portfolioItems
  else portfolioItems.map (fun it => if it.id = id then mergePortfolioItem it updates else it)

/-- Remote `deletePortfolioItem` (DataContext.tsx lines 201-203). -/
def deletePortfolioItemRemote (err : Bool) (portfolioItems : List PortfolioItem)
    (id : String) : List PortfolioItem :=
  if err then portfolioItems else portfolioItems.filter (fun it => it.id ≠ id)

/-- Remote `addTrade` (DataContext.tsx lines 232-234). -/
def addTradeRemote (err : Bool) (trades : List Trade) (newId : String)
    (tradeData : TradeInput) : List Trade :=
  if err then trades else addTrade trades newId tradeData

/-- Remote `editTrade` (DataContext.tsx lines 267-272): the not-found early
return happens before the remote call; on error the collection is untouched. -/
def editTradeRemote (err : Bool) (trades : List Trade) (id : String)
    (updates : TradeUpdates) : List Trade :=
  match trades.find? (fun t => t.id = id) with
  | none => trades
  | some currentTrade =>
      if err then trades
      else trades.map (fun t => if t.id = id then editTradeRecord currentTrade updates else t)

/-- Remote `deleteTrade` (DataContext.tsx lines 281-283). -/
def deleteTradeRemote (err : Bool) (trades : List Trade) (id : String) : List Trade :=
  if err then trades else trades.filter (fun t => t.id ≠ id)

/-- Remote `clearTrades` (DataContext.tsx lines 292-294): one filtered
delete-all; the cache is emptied only on success. -/
def clearTradesRemote (err : Bool) (trades : List Trade) : List Trade :=
  if err then trades else []

/-! ### Concrete records used by witnesses and counterexamples -/

/-- A winning long payload: entry 100, exit 110, size 10 (pnl 1). -/
def winTradeInput : TradeInput :=
  { date := "2024-01-02", ticker := "BTC", direction := Direction.Long,
    entryPrice := 100, exitPrice := some 110, size := 10,
    status := TradeStatus.Win, rationale := "breakout", exitReason := none,
    postExitReflection := none }

/-- A closed long payload whose exitPrice is the (present) number 0. -/
def zeroExitTradeInput : TradeInput :=
  { date := "2024-01-03", ticker := "BTC", direction := Direction.Long,
    entryPrice := 100, exitPrice := some 0, size := 5,
    status := TradeStatus.Win, rationale := "wipeout", exitReason := none,
    postExitReflection := none }

/-- A closed long payload with entryPrice 0 (the unguarded denominator). -/
def zeroEntryInput : TradeInput :=
  { date := "2024-01-04", ticker := "NEW", direction := Direction.Long,
    entryPrice := 0, exitPrice := some 50, size := 2,
    status := TradeStatus.Win, rationale := "airdrop", exitReason := none,
    postExitReflection := none }

/-- A stored winning trade with literal pnl 1. -/
def sampleTrade : Trade :=
  { id := "t1", date := "2024-01-02", ticker := "BTC", direction := Direction.Long,
    entryPrice := 100, exitPrice := some 110, size := 10, pnl := some 1,
    status := TradeStatus.Win, rationale := "breakout", exitReason := none,
    postExitReflection := none }

/-- A stored open long trade, entry 100, no exit yet. -/
def openLongTrade : Trade :=
  { id := "t2", date := "2024-01-05", ticker := "ETH", direction := Direction.Long,
    entryPrice := 100, exitPrice := none, size := 1, pnl := none,
    status := TradeStatus.Open, rationale := "swing", exitReason := none,
    postExitReflection := none }

/-- A stored open trade with entryPrice 0. -/
def zeroEntryOpenTrade : Trade :=
  { id := "t3", date := "2024-01-06", ticker := "NEW", direction := Direction.Long,
    entryPrice := 0, exitPrice := none, size := 3, pnl := none,
    status := TradeStatus.Open, rationale := "airdrop", exitReason := none,
    postExitReflection := none }

/-- Updates closing a trade at exit 50 with status Win. -/
def closeAtFifty : TradeUpdates :=
  { status := some TradeStatus.Win, exitPrice := some (some 50) }

/-- Updates supplying `exitPrice: null` (clearing the exit price). -/
def clearExit : TradeUpdates := { exitPrice := some none }

/-- Updates supplying only `exitPrice: 110`. -/
def exitOneTen : TradeUpdates := { exitPrice := some (some 110) }

/-- Updates supplying only `exitPrice: 90`. -/
def exitNinety : TradeUpdates := { exitPrice := some (some 90) }

/-- Updates supplying only `exitPrice: 0`. -/
def exitZero : TradeUpdates := { exitPrice := some (some 0) }

/-- The operation sequence refuting the pnl/exitPrice biconditional: close a
long at 110, then clear its exitPrice by edit, then add a closed trade whose
exitPrice is 0. -/
def opsC2 : List TradeOp :=
  [TradeOp.add "a" winTradeInput, TradeOp.edit "a" clearExit,
   TradeOp.add "b" zeroExitTradeInput]

/-- A form state for a long trade with entry price 100 filled in. -/
def formLong100 : TradeForm :=
  { date := "2024-01-02", ticker := "BTC", direction := Direction.Long,
    entryPrice := some 100, exitPrice := none, size := some 1,
    status := TradeStatus.Open, rationale := "breakout", exitReason := "",
    postExitReflection := "" }

/-- A previous live-price map holding only ETH at 3000. -/
def ethPrices : PriceMap := [("ETH", 3000)]

/-- A crypto holding for BTC. -/
def btcHolding : PortfolioItem :=
  { id := "p1", token := "BTC", amount := 1, buyPrice := 40000,
    currentPrice := 45000, category := Category.Liquid,
    assetType := some AssetType.Crypto }

/-- A stock holding for AAPL with fallback price 190.12. -/
def aaplHolding : PortfolioItem :=
  { id := "p2", token := "AAPL", amount := 2, buyPrice := 150,
    currentPrice := 19012/100, category := Category.Liquid,
    assetType := some AssetType.Stock }

/-- The example portfolio: one crypto item, one stock item. -/
def portfolioExample : List PortfolioItem := [btcHolding, aaplHolding]

/-- The fetched crypto result of the example cycle: BTC at 50000. -/
def btcCryptoData : List (String × ℚ) := [("BTC", 50000)]

/-- Random draws fixed at 1/2, making the random-walk factor exactly 1. -/
def halfFactors : String → ℚ := fun _ => 1/2

/-- A crypto holding whose token is stored lowercase. -/
def ethHolding : PortfolioItem :=
  { id := "p3", token := "eth", amount := 2, buyPrice := 1000,
    currentPrice := 2500, category := Category.Liquid,
    assetType := some AssetType.Crypto }

/-! ## Theorems -/

/-- Unfolding of the PnL guard. -/
theorem tradeGuard_eq_true {s : TradeStatus} {e : Option ℚ} :
    tradeGuard s e = true ↔ s ≠ TradeStatus.Open ∧ isTruthy e = true := by
  simp [tradeGuard]

/-- C10: editTrade with an id not present in the trades collection is a
silent no-op: the early `if (!currentTrade) return` fires before any remote
call or state update, so the collection (the only state editTrade touches)
is returned unchanged and no error is signalled. -/
theorem editTrade_unknown_id_noop (trades : List Trade) (id : String)
    (updates : TradeUpdates) (h : ∀ t ∈ trades, t.id ≠ id) :
    editTrade trades id updates = trades := by
  unfold editTrade
  have hf : trades.find? (fun t => t.id = id) = none := by
    rw [List.find?_eq_none]
    intro t ht
    simpa using h t ht
  rw [hf]

/-- Witness for C10 at a concrete collection and missing id. -/
theorem editTrade_unknown_id_noop_witness :
    sampleTrade.id ≠ "zzz" ∧
    editTrade [sampleTrade] "zzz" clearExit = [sampleTrade] :=
  ⟨by decide, editTrade_unknown_id_noop [sampleTrade] "zzz" clearExit (by decide)⟩

/-- C9: an exitPrice equal to 0 is falsy, so `addTrade` stores pnl as absent
and `editTrade` (merged status not Open, merged exitPrice 0) keeps the prior
stored pnl instead of recomputing. -/
theorem zero_exit_price_treated_as_absent (newId : String) (tradeData : TradeInput)
    (currentTrade : Trade) (updates : TradeUpdates)
    (_ha : tradeData.status ≠ TradeStatus.Open)
    (hax : tradeData.exitPrice = some 0)
    (he : (mergeTrade currentTrade updates).status ≠ TradeStatus.Open)
    (hex : (mergeTrade currentTrade updates).exitPrice = some 0) :
    (addTradeRecord newId tradeData).pnl = none ∧
    (editTradeRecord currentTrade updates).pnl = currentTrade.pnl := by
  constructor
  · have hg : tradeGuard tradeData.status tradeData.exitPrice = false := by
      simp [tradeGuard, isTruthy, hax]
    simp [addTradeRecord, hg]
  · have hg : tradeGuard (mergeTrade currentTrade updates).status
        (mergeTrade currentTrade updates).exitPrice = false := by
      simp [tradeGuard, isTruthy, hex]
    simp [editTradeRecord, hg, he]

/-- Witness for C9: adding the zero-exit payload yields absent pnl; editing
the sample winner to exit 0 keeps its stored pnl. -/
theorem zero_exit_price_treated_as_absent_witness :
    zeroExitTradeInput.status ≠ TradeStatus.Open ∧
    zeroExitTradeInput.exitPrice = some 0 ∧
    (mergeTrade sampleTrade exitZero).status ≠ TradeStatus.Open ∧
    (mergeTrade sampleTrade exitZero).exitPrice = some 0 ∧
    (addTradeRecord "w9" zeroExitTradeInput).pnl = none ∧
    (editTradeRecord sampleTrade exitZero).pnl = sampleTrade.pnl := by
  refine ⟨by decide, by decide, by decide, by decide, ?_, ?_⟩
  · exact (zero_exit_price_treated_as_absent "w9" zeroExitTradeInput sampleTrade exitZero
      (by decide) (by decide) (by decide) (by decide)).1
  · exact (zero_exit_price_treated_as_absent "w9" zeroExitTradeInput sampleTrade exitZero
      (by decide) (by decide) (by decide) (by decide)).2

/-- C8: the PnL derivation is unguarded against entryPrice 0: on a closed
payload with entryPrice 0 and positive exitPrice the guard holds and both
addTrade and editTrade compute pnl through the division by the zero
entryPrice (in this rational embedding division by zero denotes 0; the
point established is that the zero denominator is neither rejected, clamped,
nor skipped — pnl is a present value produced by the formula). -/
theorem pnl_division_by_zero_unguarded :
    tradeGuard zeroEntryInput.status zeroEntryInput.exitPrice = true ∧
    zeroEntryInput.entryPrice = 0 ∧
    (addTradeRecord "z1" zeroEntryInput).pnl =
      some (pnlFormula Direction.Long 0 50 2) ∧
    (addTradeRecord "z1" zeroEntryInput).pnl.isSome = true ∧
    tradeGuard (mergeTrade zeroEntryOpenTrade closeAtFifty).status
      (mergeTrade zeroEntryOpenTrade closeAtFifty).exitPrice = true ∧
    (mergeTrade zeroEntryOpenTrade closeAtFifty).entryPrice = 0 ∧
    (editTradeRecord zeroEntryOpenTrade closeAtFifty).pnl =
      some (pnlFormula Direction.Long 0 50 3) ∧
    (editTradeRecord zeroEntryOpenTrade closeAtFifty).pnl.isSome = true := by
  refine ⟨by decide, by decide, ?_, ?_, by decide, by decide, ?_, ?_⟩
  · simp [addTradeRecord, tradeGuard, isTruthy, zeroEntryInput, pnlFormula]
  · simp [addTradeRecord, tradeGuard, isTruthy, zeroEntryInput]
  · simp [editTradeRecord, mergeTrade, tradeGuard, isTruthy, zeroEntryOpenTrade,
      closeAtFifty, pnlFormula]
  · simp [editTradeRecord, mergeTrade, tradeGuard, isTruthy, zeroEntryOpenTrade,
      closeAtFifty]

/-- C1 (amended): whenever the record resulting from addTrade or editTrade
has status not Open and a present nonzero exitPrice, its stored pnl equals
the documented Long/Short formula.  (Presence alone is not enough: a present
exitPrice of 0 is falsy and skips the recomputation, see the
counterexample.) -/
theorem closed_trade_pnl_formula (newId : String) (tradeData : TradeInput)
    (currentTrade : Trade) (updates : TradeUpdates) (x y : ℚ)
    (ha1 : (addTradeRecord newId tradeData).status ≠ TradeStatus.Open)
    (ha2 : (addTradeRecord newId tradeData).exitPrice = some x)
    (ha3 : x ≠ 0)
    (he1 : (editTradeRecord currentTrade updates).status ≠ TradeStatus.Open)
    (he2 : (editTradeRecord currentTrade updates).exitPrice = some y)
    (he3 : y ≠ 0) :
    (addTradeRecord newId tradeData).pnl =
      some (pnlFormula tradeData.direction tradeData.entryPrice x tradeData.size) ∧
    (editTradeRecord currentTrade updates).pnl =
      some (pnlFormula (mergeTrade currentTrade updates).direction
        (mergeTrade currentTrade updates).entryPrice y
        (mergeTrade currentTrade updates).size) := by
  have ha1' : tradeData.status ≠ TradeStatus.Open := by simpa [addTradeRecord] using ha1
  have ha2' : tradeData.exitPrice = some x := by simpa [addTradeRecord] using ha2
  have he1' : (mergeTrade currentTrade updates).status ≠ TradeStatus.Open := by
    simpa [editTradeRecord] using he1
  have he2' : (mergeTrade currentTrade updates).exitPrice = some y := by
    simpa [editTradeRecord] using he2
  constructor
  · have hg : tradeGuard tradeData.status tradeData.exitPrice = true :=
      tradeGuard_eq_true.mpr ⟨ha1', by simp [isTruthy, ha2', ha3]⟩
    rw [ha2'] at hg
    simp [addTradeRecord, hg, ha2']
  · have hg : tradeGuard (mergeTrade currentTrade updates).status
        (mergeTrade currentTrade updates).exitPrice = true :=
      tradeGuard_eq_true.mpr ⟨he1', by simp [isTruthy, he2', he3]⟩
    rw [he2'] at hg
    simp [editTradeRecord, hg, he2']

/-- Counterexample to C1 as stated: the added record has status Win and a
present exitPrice (the number 0), yet the stored pnl is absent, not the
formula value. -/
theorem zero_exit_defeats_pnl_formula_claim :
    (addTradeRecord "c1" zeroExitTradeInput).status ≠ TradeStatus.Open ∧
    (addTradeRecord "c1" zeroExitTradeInput).exitPrice = some 0 ∧
    (addTradeRecord "c1" zeroExitTradeInput).pnl = none ∧
    (addTradeRecord "c1" zeroExitTradeInput).pnl ≠
      some (pnlFormula zeroExitTradeInput.direction zeroExitTradeInput.entryPrice
        0 zeroExitTradeInput.size) := by
  refine ⟨by decide, by decide, ?_, ?_⟩
  · simp [addTradeRecord, tradeGuard, isTruthy, zeroExitTradeInput]
  · simp [addTradeRecord, tradeGuard, isTruthy, zeroExitTradeInput]

/-- Witness for C1: a long closed at 110 from 100 with size 10, and an edit
of the sample winner to exit 90. -/
theorem closed_trade_pnl_formula_witness :
    (addTradeRecord "w1" winTradeInput).status ≠ TradeStatus.Open ∧
    (addTradeRecord "w1" winTradeInput).exitPrice = some 110 ∧
    ((110 : ℚ) ≠ 0) ∧
    (editTradeRecord sampleTrade exitNinety).status ≠ TradeStatus.Open ∧
    (editTradeRecord sampleTrade exitNinety).exitPrice = some 90 ∧
    ((90 : ℚ) ≠ 0) ∧
    (addTradeRecord "w1" winTradeInput).pnl =
      some (pnlFormula winTradeInput.direction winTradeInput.entryPrice 110
        winTradeInput.size) ∧
    (editTradeRecord sampleTrade exitNinety).pnl =
      some (pnlFormula (mergeTrade sampleTrade exitNinety).direction
        (mergeTrade sampleTrade exitNinety).entryPrice 90
        (mergeTrade sampleTrade exitNinety).size) := by
  have h := closed_trade_pnl_formula "w1" winTradeInput sampleTrade exitNinety 110 90
    (by decide) (by decide) (by decide) (by decide) (by decide) (by decide)
  exact ⟨by decide, by decide, by decide, by decide, by decide, by decide, h.1, h.2⟩

/-- Every record built by `addTrade` satisfies the pnl invariant. -/
theorem pnlInvariant_addTradeRecord (newId : String) (tradeData : TradeInput) :
    pnlInvariant (addTradeRecord newId tradeData) := by
  constructor
  · intro hOpen
    simp only [addTradeRecord] at hOpen ⊢
    have hg : tradeGuard tradeData.status tradeData.exitPrice = false := by
      simp [tradeGuard, hOpen]
    simp [hg]
  · intro hNe hT
    simp only [addTradeRecord] at hNe hT ⊢
    have hg : tradeGuard tradeData.status tradeData.exitPrice = true := by
      simp [tradeGuard, hNe, hT]
    simp [hg]

/-- Every record built by `editTrade` satisfies the pnl invariant, whatever
the previous record looked like. -/
theorem pnlInvariant_editTradeRecord (currentTrade : Trade) (updates : TradeUpdates) :
    pnlInvariant (editTradeRecord currentTrade updates) := by
  constructor
  · intro hOpen
    simp only [editTradeRecord] at hOpen ⊢
    have hg : tradeGuard (mergeTrade currentTrade updates).status
        (mergeTrade currentTrade updates).exitPrice = false := by
      simp [tradeGuard, hOpen]
    rw [hOpen] at hg
    simp [hg, hOpen]
  · intro hNe hT
    simp only [editTradeRecord] at hNe hT ⊢
    have hg : tradeGuard (mergeTrade currentTrade updates).status
        (mergeTrade currentTrade updates).exitPrice = true := by
      simp [tradeGuard, hNe, hT]
    simp [hg]

/-- Unfolding one step of an operation sequence. -/
theorem applyTradeOps_cons (trades : List Trade) (op : TradeOp) (ops : List TradeOp) :
    applyTradeOps trades (op :: ops) = applyTradeOps (applyTradeOp trades op) ops := rfl

/-- C2 (amended): after any sequence of addTrade/editTrade operations on a
collection whose trades already satisfy it, every trade satisfies the pnl
invariant: pnl is absent whenever status is Open (regardless of exitPrice),
and pnl is present whenever status is not Open and the stored exitPrice is
present and nonzero.  The claimed biconditional with bare presence fails in
both directions, see the counterexample. -/
theorem trades_pnl_invariant (init : List Trade) (ops : List TradeOp)
    (hinit : ∀ t ∈ init, pnlInvariant t) :
    ∀ t ∈ applyTradeOps init ops, pnlInvariant t := by
  induction ops generalizing init with
  | nil => exact hinit
  | cons op ops ih =>
    rw [applyTradeOps_cons]
    apply ih
    intro t ht
    cases op with
    | add newId tradeData =>
      simp only [applyTradeOp, addTrade, List.mem_cons] at ht
      rcases ht with rfl | hmem
      · exact pnlInvariant_addTradeRecord newId tradeData
      · exact hinit t hmem
    | edit id updates =>
      simp only [applyTradeOp, editTrade] at ht
      rcases hfind : init.find? (fun t => t.id = id) with _ | currentTrade
      · rw [hfind] at ht
        exact hinit t ht
      · rw [hfind] at ht
        rcases List.mem_map.mp ht with ⟨s, hs, rfl⟩
        by_cases hid : s.id = id
        · simpa [hid] using pnlInvariant_editTradeRecord currentTrade updates
        · simpa [hid] using hinit s hs

/-- Counterexample to C2 as stated, in one concrete operation sequence from
the empty collection: the front trade has status Win and a present exitPrice
of 0 but absent pnl, and the other trade has a present pnl with status Win
but an absent exitPrice (its exit was cleared by an edit). -/
theorem pnl_exitPrice_biconditional_fails :
    (applyTradeOps [] opsC2).map Trade.status = [TradeStatus.Win, TradeStatus.Win] ∧
    (applyTradeOps [] opsC2).map Trade.exitPrice = [some 0, none] ∧
    (applyTradeOps [] opsC2).map Trade.pnl = [none, some 1] := by
  refine ⟨?_, ?_, ?_⟩ <;>
    (norm_num [applyTradeOps, applyTradeOp, opsC2, addTrade, addTradeRecord, editTrade,
      editTradeRecord, mergeTrade, tradeGuard, isTruthy, pnlFormula, winTradeInput,
      zeroExitTradeInput, clearExit, List.find?]
     try decide)

/-- Witness for C2: the invariant holds of a concrete starting collection
and is carried to the record added by a concrete operation. -/
theorem trades_pnl_invariant_witness :
    pnlInvariant sampleTrade ∧ pnlInvariant (addTradeRecord "w2" winTradeInput) := by
  have hinit : ∀ t ∈ [sampleTrade], pnlInvariant t := by
    intro t ht
    rw [List.mem_singleton] at ht
    subst ht
    exact ⟨by decide, fun _ _ => by decide⟩
  refine ⟨hinit sampleTrade (List.mem_singleton.mpr rfl), ?_⟩
  exact trades_pnl_invariant [sampleTrade] [TradeOp.add "w2" winTradeInput] hinit
    (addTradeRecord "w2" winTradeInput) (List.mem_cons_self _ _)

/-- C3 (amended): the Win/Loss/Breakeven inference from comparing exitPrice
to entryPrice is performed by the trade form's exit-price change handler
(TradingJournal.tsx `handleExitPriceChange`), not by editTrade: the handler
recomputes the form status per the documented table whenever exit and entry
fields are nonempty, while the record produced by editTrade always carries
`updates.status` when supplied and the prior status otherwise — supplying an
exitPrice alone never transitions status. -/
theorem status_inference_in_form_handler (form : TradeForm) (entry exit : ℚ)
    (hentry : form.entryPrice = some entry)
    (currentTrade : Trade) (updates : TradeUpdates) :
    (form.direction = Direction.Long → entry < exit →
      (handleExitPriceChange form (some exit)).status = TradeStatus.Win) ∧
    (form.direction = Direction.Long → exit < entry →
      (handleExitPriceChange form (some exit)).status = TradeStatus.Loss) ∧
    (form.direction = Direction.Long → exit = entry →
      (handleExitPriceChange form (some exit)).status = TradeStatus.Breakeven) ∧
    (form.direction = Direction.Short → exit < entry →
      (handleExitPriceChange form (some exit)).status = TradeStatus.Win) ∧
    (form.direction = Direction.Short → entry < exit →
      (handleExitPriceChange form (some exit)).status = TradeStatus.Loss) ∧
    (form.direction = Direction.Short → exit = entry →
      (handleExitPriceChange form (some exit)).status = TradeStatus.Breakeven) ∧
    (editTradeRecord currentTrade updates).status =
      updates.status.getD currentTrade.status := by
  refine ⟨?_, ?_, ?_, ?_, ?_, ?_, ?_⟩
  · intro hd hlt
    simp [handleExitPriceChange, hentry, hd, hlt]
  · intro hd hlt
    simp [handleExitPriceChange, hentry, hd, hlt, not_lt_of_gt hlt, asymm hlt]
  · intro hd heq
    simp [handleExitPriceChange, hentry, hd, heq]
  · intro hd hlt
    simp [handleExitPriceChange, hentry, hd, hlt]
  · intro hd hlt
    simp [handleExitPriceChange, hentry, hd, hlt, not_lt_of_gt hlt, asymm hlt]
  · intro hd heq
    simp [handleExitPriceChange, hentry, hd, heq]
  · simp [editTradeRecord, mergeTrade]

/-- Counterexample to C3 as stated: editTrade on an Open long trade (entry
100) supplying only exitPrice 110 leaves the status Open; the claim demands
Win. -/
theorem editTrade_does_not_infer_status :
    (editTrade [openLongTrade] "t2" exitOneTen).map Trade.status = [TradeStatus.Open] ∧
    TradeStatus.Open ≠ TradeStatus.Win := by
  constructor
  · norm_num [editTrade, editTradeRecord, mergeTrade, tradeGuard, isTruthy,
      openLongTrade, exitOneTen, List.find?]
  · decide

/-- Witness for C3 at the spec's example values: entry 100, exit 110, long. -/
theorem status_inference_in_form_handler_witness :
    formLong100.entryPrice = some 100 ∧
    (formLong100.direction = Direction.Long → (100 : ℚ) < 110 →
      (handleExitPriceChange formLong100 (some 110)).status = TradeStatus.Win) ∧
    (editTradeRecord sampleTrade closeAtFifty).status =
      closeAtFifty.status.getD sampleTrade.status := by
  have h := status_inference_in_form_handler formLong100 100 110 (by decide)
    sampleTrade closeAtFifty
  exact ⟨by decide, h.1, (status_inference_in_form_handler formLong100 100 110 (by decide)
    sampleTrade closeAtFifty).2.2.2.2.2.2⟩

/-- C5: on the remote persistence strategy, every mutation that reports an
error (insert, update, delete and delete-all, across the journal, portfolio
and trades collections) leaves the corresponding in-memory collection
completely unchanged: each `setX` call sits under `if (!error)`. -/
theorem remote_error_leaves_collections (journalEntries : List JournalEntry)
    (entry : JournalEntryInput) (newId : String) (eid : String)
    (portfolioItems : List PortfolioItem) (pItem : PortfolioItemInput)
    (pUpdates : PortfolioUpdates) (trades : List Trade) (tradeData : TradeInput)
    (tUpdates : TradeUpdates) :
    addJournalEntryRemote true journalEntries entry newId = journalEntries ∧
    deleteJournalEntryRemote true journalEntries eid = journalEntries ∧
    addPortfolioItemRemote true portfolioItems pItem newId = portfolioItems ∧
    editPortfolioItemRemote true portfolioItems eid pUpdates = portfolioItems ∧
    deletePortfolioItemRemote true portfolioItems eid = portfolioItems ∧
    addTradeRemote true trades newId tradeData = trades ∧
    editTradeRemote true trades eid tUpdates = trades ∧
    deleteTradeRemote true trades eid = trades ∧
    clearTradesRemote true trades = trades := by
  refine ⟨rfl, rfl, rfl, rfl, rfl, rfl, ?_, rfl, rfl⟩
  unfold editTradeRemote
  cases hfind : trades.find? (fun t => t.id = eid) <;> simp

/-- C6: the effective valuation price of a portfolio item is the live price
looked up under the uppercased token when present (even a live price of 0,
since the source tests `!== undefined`), and the stored currentPrice
otherwise; the item's value is that price times the amount, and the stored
item rides along unmodified in the derived row. -/
theorem effective_price_lookup (livePrices : PriceMap) (item : PortfolioItem) :
    (∀ p, priceLookup livePrices (jsToUpperCase item.token) = some p →
      (statRow livePrices item).effectivePrice = p ∧
      (statRow livePrices item).value = p * item.amount) ∧
    (priceLookup livePrices (jsToUpperCase item.token) = none →
      (statRow livePrices item).effectivePrice = item.currentPrice ∧
      (statRow livePrices item).value = item.currentPrice * item.amount) ∧
    (statRow livePrices item).item = item := by
  refine ⟨?_, ?_, ?_⟩
  · intro p hp
    constructor <;> simp [statRow, hp]
  · intro hp
    constructor <;> simp [statRow, hp]
  · rfl

/-- Witness for C6: a lowercase token finds its uppercased live price. -/
theorem effective_price_lookup_witness :
    priceLookup ethPrices (jsToUpperCase ethHolding.token) = some 3000 ∧
    (statRow ethPrices ethHolding).effectivePrice = 3000 ∧
    (statRow ethPrices ethHolding).value = 3000 * ethHolding.amount ∧
    (statRow ethPrices ethHolding).item = ethHolding := by
  have hp : priceLookup ethPrices (jsToUpperCase ethHolding.token) = some 3000 := by decide
  have h := effective_price_lookup ethPrices ethHolding
  exact ⟨hp, (h.1 3000 hp).1, (h.1 3000 hp).2, h.2.2⟩

/-- C7: adding a journal entry then listing the collection yields the
payload's five fields, extended with the freshly generated id, at the front,
with all previously listed entries following unchanged. -/
theorem addJournalEntry_round_trip (journalEntries : List JournalEntry)
    (entry : JournalEntryInput) (newId : String) :
    (addJournalEntry journalEntries entry newId).head? = some (mkJournalEntry newId entry) ∧
    (mkJournalEntry newId entry).date = entry.date ∧
    (mkJournalEntry newId entry).macroReview = entry.macroReview ∧
    (mkJournalEntry newId entry).altsMarket = entry.altsMarket ∧
    (mkJournalEntry newId entry).summary = entry.summary ∧
    (mkJournalEntry newId entry).sentiment = entry.sentiment ∧
    (mkJournalEntry newId entry).id = newId ∧
    (addJournalEntry journalEntries entry newId).tail = journalEntries :=
  ⟨rfl, rfl, rfl, rfl, rfl, rfl, rfl, rfl⟩

/-- Filtering out the bindings of one key does not change `find?` for a
different key. -/
theorem find?_filter_ne (m : PriceMap) (k key : String) (h : key ≠ k) :
    (m.filter (fun p => p.1 ≠ k)).find? (fun p => p.1 = key) =
      m.find? (fun p => p.1 = key) := by
  induction m with
  | nil => rfl
  | cons kv rest ih =>
    rw [List.filter_cons]
    by_cases h1 : kv.1 = k
    · have hpa : (decide (kv.1 ≠ k)) = false := by simp [h1]
      rw [hpa, if_neg Bool.false_ne_true, ih]
      have h2 : ¬(kv.1 = key) := by
        rw [h1]
        exact fun hh => h hh.symm
      rw [List.find?_cons_of_neg _ (by simpa using h2)]
    · have hpa : (decide (kv.1 ≠ k)) = true := by simpa using h1
      rw [hpa, if_pos rfl]
      by_cases h2 : kv.1 = key
      · rw [List.find?_cons_of_pos _ (by simpa using h2),
          List.find?_cons_of_pos _ (by simpa using h2)]
      · rw [List.find?_cons_of_neg _ (by simpa using h2),
          List.find?_cons_of_neg _ (by simpa using h2), ih]

/-- Lookup after a property write. -/
theorem priceLookup_setKey (m : PriceMap) (k : String) (v : ℚ) (key : String) :
    priceLookup (setKey m k v) key = if key = k then some v else priceLookup m key := by
  by_cases h : key = k
  · subst h
    unfold priceLookup setKey
    rw [if_pos rfl, List.find?_cons_of_pos _ (by simp)]
    rfl
  · have h' : ¬(k = key) := fun hh => h hh.symm
    unfold priceLookup setKey
    rw [if_neg h, List.find?_cons_of_neg _ (by simpa using h'),
      find?_filter_ne m k key h]

/-- Lookup after writing a whole result set: the key's last binding in the
results wins, otherwise the previous map answers. -/
theorem priceLookup_mergeInto (results : List (String × ℚ)) (m : PriceMap) (key : String) :
    priceLookup (mergeInto m results) key =
      match lookupLast results key with
      | some v => some v
      | none => priceLookup m key := by
  induction results generalizing m with
  | nil => simp [mergeInto, lookupLast]
  | cons kv rest ih =>
    have step : mergeInto m (kv :: rest) = mergeInto (setKey m kv.1 kv.2) rest := rfl
    rw [step, ih]
    cases h : lookupLast rest key with
    | some v => simp [lookupLast, h]
    | none =>
      rw [priceLookup_setKey]
      by_cases hk : key = kv.1
      · subst hk
        simp [lookupLast, h]
      · have hk' : ¬(kv.1 = key) := fun hh => hk hh.symm
        simp [lookupLast, h, hk, hk']

/-- The stock loop only writes stock tokens. -/
theorem lookupLast_stockWrites_of_not_mem (factors : String → ℚ)
    (ss : List PortfolioItem) (key : String)
    (h : key ∉ ss.map PortfolioItem.token) :
    ∀ m, lookupLast (stockWrites factors m ss) key = none := by
  induction ss with
  | nil => intro m; rfl
  | cons item rest ih =>
    intro m
    simp only [List.map_cons, List.mem_cons, not_or] at h
    have h1 : ¬(item.token = key) := fun hh => h.1 hh.symm
    simp [stockWrites, lookupLast, ih h.2, h1]

/-- A key the stock loop wrote is one of the stock tokens. -/
theorem lookupLast_stockWrites_mem (factors : String → ℚ) (ss : List PortfolioItem)
    (key : String) (v : ℚ) (m : PriceMap)
    (h : lookupLast (stockWrites factors m ss) key = some v) :
    key ∈ ss.map PortfolioItem.token := by
  by_contra hk
  rw [lookupLast_stockWrites_of_not_mem factors ss key hk m] at h
  cases h

/-- The stock loop's writes only depend on the starting map through the
lookups of the stock tokens. -/
theorem stockWrites_congr (factors : String → ℚ) (ss : List PortfolioItem) :
    ∀ m1 m2, (∀ item ∈ ss, priceLookup m1 item.token = priceLookup m2 item.token) →
      stockWrites factors m1 ss = stockWrites factors m2 ss := by
  induction ss with
  | nil => intro m1 m2 _; rfl
  | cons item rest ih =>
    intro m1 m2 h
    have hv : stockVal factors m1 item = stockVal factors m2 item := by
      unfold stockVal
      rw [h item (List.mem_cons_self item rest)]
    simp only [stockWrites, hv]
    have hrest : stockWrites factors (setKey m1 item.token (stockVal factors m2 item)) rest
        = stockWrites factors (setKey m2 item.token (stockVal factors m2 item)) rest := by
      apply ih
      intro it hit
      rw [priceLookup_setKey, priceLookup_setKey]
      by_cases he : it.token = item.token
      · simp [he]
      · simp [he, h it (List.mem_cons_of_mem item hit)]
    rw [hrest]

/-- The stock loop is the additive merge of the bindings it writes. -/
theorem foldl_stockStep_eq (factors : String → ℚ) (ss : List PortfolioItem) :
    ∀ m, ss.foldl (stockStep factors) m = mergeInto m (stockWrites factors m ss) := by
  induction ss with
  | nil => intro m; rfl
  | cons item rest ih =>
    intro m
    have step : (item :: rest).foldl (stockStep factors) m =
        rest.foldl (stockStep factors) (stockStep factors m item) := rfl
    rw [step, ih]
    rfl

/-- C4: a `refreshPrices` cycle on a non-empty portfolio is the previous map
with the fetched crypto prices and the synthesized non-crypto prices merged
in additively: the final map is literally the two result sets written over
the previous map; a key in neither result set keeps its previous value; a
key of either result set gets that result's value; and when the crypto
result's keys are disjoint from the stock tokens, running the two merges in
the other order gives the same lookups. -/
theorem refreshPrices_additive_merge (prev : PriceMap) (items : List PortfolioItem)
    (cryptoData : List (String × ℚ)) (factors : String → ℚ) (key : String)
    (hne : items ≠ []) :
    refreshPrices prev items cryptoData factors =
      mergeInto (cryptoMergedMap prev items cryptoData)
        (synthesizedStockPrices prev items cryptoData factors) ∧
    (lookupLast cryptoData key = none →
      key ∉ (items.filter (fun i => !isCryptoItem i)).map PortfolioItem.token →
      priceLookup (refreshPrices prev items cryptoData factors) key =
        priceLookup prev key) ∧
    (∀ v, (items.filter isCryptoItem).isEmpty = false →
      lookupLast cryptoData key = some v →
      key ∉ (items.filter (fun i => !isCryptoItem i)).map PortfolioItem.token →
      priceLookup (refreshPrices prev items cryptoData factors) key = some v) ∧
    (∀ v, lookupLast (synthesizedStockPrices prev items cryptoData factors) key = some v →
      priceLookup (refreshPrices prev items cryptoData factors) key = some v) ∧
    ((∀ item ∈ items.filter (fun i => !isCryptoItem i),
        lookupLast cryptoData item.token = none) →
      priceLookup (refreshPrices prev items cryptoData factors) key =
        priceLookup (refreshPricesStocksFirst prev items cryptoData factors) key) := by
  have hE : items.isEmpty = false := by
    cases items with
    | nil => exact absurd rfl hne
    | cons a l => rfl
  have hstruct : refreshPrices prev items cryptoData factors =
      mergeInto (cryptoMergedMap prev items cryptoData)
        (synthesizedStockPrices prev items cryptoData factors) := by
    unfold refreshPrices synthesizedStockPrices
    rw [hE]
    simp only [Bool.false_eq_true, if_false]
    exact foldl_stockStep_eq factors _ _
  refine ⟨hstruct, ?_, ?_, ?_, ?_⟩
  · intro hc hs
    rw [hstruct, priceLookup_mergeInto]
    simp only [synthesizedStockPrices]
    rw [lookupLast_stockWrites_of_not_mem factors _ key hs]
    unfold cryptoMergedMap
    by_cases hcE : (items.filter isCryptoItem).isEmpty
    · simp [hcE]
    · simp [hcE, priceLookup_mergeInto, hc]
  · intro v hcne hc hs
    rw [hstruct, priceLookup_mergeInto]
    simp only [synthesizedStockPrices]
    rw [lookupLast_stockWrites_of_not_mem factors _ key hs]
    unfold cryptoMergedMap
    simp [hcne, priceLookup_mergeInto, hc]
  · intro v hsv
    rw [hstruct, priceLookup_mergeInto, hsv]
  · intro hdisj
    by_cases hcE : (items.filter isCryptoItem).isEmpty
    · unfold refreshPrices refreshPricesStocksFirst cryptoMergedMap
      rw [hE]
      simp [hcE]
    · have hcE' : ¬((items.filter isCryptoItem).isEmpty = true) := hcE
      have hW : stockWrites factors (mergeInto prev cryptoData)
            (items.filter (fun i => !isCryptoItem i))
          = stockWrites factors prev (items.filter (fun i => !isCryptoItem i)) := by
        apply stockWrites_congr
        intro it hit
        rw [priceLookup_mergeInto, hdisj it hit]
      have hL : refreshPrices prev items cryptoData factors =
          mergeInto (mergeInto prev cryptoData)
            (stockWrites factors prev (items.filter (fun i => !isCryptoItem i))) := by
        rw [hstruct]
        simp only [synthesizedStockPrices, cryptoMergedMap]
        rw [if_neg hcE', hW]
      have hR : refreshPricesStocksFirst prev items cryptoData factors =
          mergeInto (mergeInto prev
            (stockWrites factors prev (items.filter (fun i => !isCryptoItem i)))) cryptoData := by
        unfold refreshPricesStocksFirst
        rw [hE]
        simp only [Bool.false_eq_true, if_false]
        rw [if_neg hcE', foldl_stockStep_eq]
      rw [hL, hR]
      rw [priceLookup_mergeInto, priceLookup_mergeInto, priceLookup_mergeInto,
        priceLookup_mergeInto]
      cases hs : lookupLast (stockWrites factors prev
          (items.filter (fun i => !isCryptoItem i))) key with
      | some v =>
        have hk : key ∈ (items.filter (fun i => !isCryptoItem i)).map PortfolioItem.token :=
          lookupLast_stockWrites_mem factors _ key v prev hs
        have hcnone : lookupLast cryptoData key = none := by
          obtain ⟨it, hit, hkey⟩ := List.mem_map.mp hk
          rw [← hkey]
          exact hdisj it hit
        simp [hcnone]
      | none =>
        cases hc : lookupLast cryptoData key <;> simp [hc]

/-- Witness for C4 at the spec's example: previous map ETH 3000, crypto
result BTC 50000, one stock item AAPL; ETH is retained, BTC is added, and
the two merge orders agree on ETH. -/
theorem refreshPrices_additive_merge_witness :
    portfolioExample ≠ [] ∧
    priceLookup (refreshPrices ethPrices portfolioExample btcCryptoData halfFactors)
      "ETH" = some 3000 ∧
    priceLookup (refreshPrices ethPrices portfolioExample btcCryptoData halfFactors)
      "BTC" = some 50000 ∧
    priceLookup (refreshPrices ethPrices portfolioExample btcCryptoData halfFactors)
      "ETH" =
      priceLookup (refreshPricesStocksFirst ethPrices portfolioExample btcCryptoData
        halfFactors) "ETH" := by
  have hne : portfolioExample ≠ [] := by decide
  refine ⟨hne, ?_, ?_, ?_⟩
  · have h := (refreshPrices_additive_merge ethPrices portfolioExample btcCryptoData
      halfFactors "ETH" hne).2.1 (by decide) (by decide)
    rw [h]
    decide
  · exact (refreshPrices_additive_merge ethPrices portfolioExample btcCryptoData
      halfFactors "BTC" hne).2.2.1 50000 (by decide) (by decide) (by decide)
  · exact (refreshPrices_additive_merge ethPrices portfolioExample btcCryptoData
      halfFactors "ETH" hne).2.2.2.2 (by decide)

end TradeApp
